import Mathlib

/-!
# Verification of the lanup network-detection and env-management core

Shallow embedding of the Go sources of `raucheacho/lanup`:

* `internal/net` — `IsPrivateIP`, `GetAllInterfaces`, `classifyInterface`,
  `PrioritizeInterfaces`, and the `IPWatcher` state machine;
* `cmd/start.go` — `transformURL`;
* `internal/env` — the `EnvWriter` merge/backup engine.

Strings are modelled with Lean `String`/`List Char`; Go byte values are
`Nat` with explicit bounds where they matter; effectful code (the watcher
loop, the file system) is modelled by explicit state passing.
-/

namespace Lanup

/-! ## IPv4 parsing (model of the Go standard library `net.ParseIP` + `To4`)

The Go code calls `net.ParseIP` and `To4`.  We model the IPv4
dotted-decimal grammar exactly as Go parses it: four dot-separated
fields, each a non-empty run of decimal digits with no leading zero and
value at most 255.  IPv6 textual forms (which Go would also accept, and
whose IPv4-mapped forms `To4` converts) are outside this model and are
treated as unparseable. -/

/-- Split a character list at every dot, mirroring the field structure the
Go parser walks. `splitOnDot [] = [[]]`, matching `strings.Split "" "."`. -/
def splitOnDot : List Char → List (List Char)
  | [] => [[]]
  | c :: rest =>
    let r := splitOnDot rest
    if c = '.' then [] :: r
    else
      match r with
      | h :: t => (c :: h) :: t
      | [] => [[c]]

/-- Parse one dotted-decimal field as Go does: non-empty, digits only,
no leading zero (Go ≥ 1.17 rejects them), value ≤ 255. -/
def parseOctet (cs : List Char) : Option Nat :=
  if cs.isEmpty then none
  else if ¬ (cs.all Char.isDigit) then none
  else if cs.length > 1 ∧ cs.head? = some '0' then none
  else
    let n := cs.foldl (fun acc c => acc * 10 + (c.toNat - 48)) 0
    if n > 255 then none else some n

/-- Parse an IPv4 dotted-decimal literal into its four byte values. -/
def parseIPv4 (s : String) : Option (Nat × Nat × Nat × Nat) :=
  match splitOnDot s.data with
  | [p, q, r, t] =>
    match parseOctet p, parseOctet q, parseOctet r, parseOctet t with
    | some a, some b, some c, some d => some (a, b, c, d)
    | _, _, _, _ => none
  | _ => none

/-- `IsPrivateIP` from `internal/net/detector.go`: parse the string, take
the 4-byte form, and test the three RFC1918 blocks on the first bytes. -/
def IsPrivateIP (ipStr : String) : Bool :=
  match parseIPv4 ipStr with
  | none => false
  | some (a, b, _, _) =>
    if a = 10 then true
    else if a = 172 ∧ 16 ≤ b ∧ b ≤ 31 then true
    else if a = 192 ∧ b = 168 then true
    else false

/-! ## Spec-side view of the private ranges (for C1)

The spec states the RFC1918 blocks as closed numeric intervals of
addresses; we compare the byte-field test of the code with those
intervals through the 32-bit value of an address. -/

/-- The 32-bit numeric value of a dotted quad. -/
def ipValue (a b c d : Nat) : Nat :=
  ((a * 256 + b) * 256 + c) * 256 + d

/-- The three RFC1918 intervals exactly as the spec words them:
`10.0.0.0`–`10.255.255.255`, `172.16.0.0`–`172.31.255.255`,
`192.168.0.0`–`192.168.255.255`. -/
def specPrivateRange (n : Nat) : Prop :=
  (ipValue 10 0 0 0 ≤ n ∧ n ≤ ipValue 10 255 255 255) ∨
  (ipValue 172 16 0 0 ≤ n ∧ n ≤ ipValue 172 31 255 255) ∨
  (ipValue 192 168 0 0 ≤ n ∧ n ≤ ipValue 192 168 255 255)

lemma parseOctet_le {cs : List Char} {n : Nat} (h : parseOctet cs = some n) :
    n ≤ 255 := by
  unfold parseOctet at h
  repeat split at h
  all_goals simp_all
  omega

lemma parseIPv4_bounds {s : String} {a b c d : Nat}
    (h : parseIPv4 s = some (a, b, c, d)) :
    a ≤ 255 ∧ b ≤ 255 ∧ c ≤ 255 ∧ d ≤ 255 := by
  unfold parseIPv4 at h
  split at h
  · split at h
    next x y z w hx hy hz hw =>
      simp only [Option.some.injEq, Prod.mk.injEq] at h
      obtain ⟨ha, hb, hc, hd⟩ := h
      subst ha; subst hb; subst hc; subst hd
      exact ⟨parseOctet_le hx, parseOctet_le hy, parseOctet_le hz, parseOctet_le hw⟩
    next => exact absurd h (by simp)
  · exact absurd h (by simp)

lemma isPrivateIP_some {a b c d : Nat} {s : String}
    (hp : parseIPv4 s = some (a, b, c, d)) :
    (IsPrivateIP s = true ↔
      (a = 10 ∨ (a = 172 ∧ 16 ≤ b ∧ b ≤ 31) ∨ (a = 192 ∧ b = 168))) := by
  have hform : IsPrivateIP s =
      (if a = 10 then true
       else if a = 172 ∧ 16 ≤ b ∧ b ≤ 31 then true
       else if a = 192 ∧ b = 168 then true
       else false) := by
    unfold IsPrivateIP
    rw [hp]
  rw [hform]
  split_ifs with h1 h2 h3 <;> simp_all

lemma bytes_private_iff {a b c d : Nat}
    (ha : a ≤ 255) (hb : b ≤ 255) (hc : c ≤ 255) (hd : d ≤ 255) :
    (a = 10 ∨ (a = 172 ∧ 16 ≤ b ∧ b ≤ 31) ∨ (a = 192 ∧ b = 168)) ↔
      specPrivateRange (ipValue a b c d) := by
  unfold specPrivateRange ipValue
  constructor <;> intro h <;> omega

lemma isPrivateIP_iff (s : String) :
    IsPrivateIP s = true ↔
      ∃ a b c d, parseIPv4 s = some (a, b, c, d) ∧
        specPrivateRange (ipValue a b c d) := by
  cases hp : parseIPv4 s with
  | none =>
    constructor
    · intro h
      unfold IsPrivateIP at h
      rw [hp] at h
      exact absurd h (by simp)
    · rintro ⟨a, b, c, d, hsome, _⟩
      exact absurd hsome (by simp)
  | some q =>
    obtain ⟨a, b, c, d⟩ := q
    obtain ⟨ha, hb, hc, hd⟩ := parseIPv4_bounds hp
    rw [isPrivateIP_some hp, bytes_private_iff ha hb hc hd]
    constructor
    · intro h
      exact ⟨a, b, c, d, rfl, h⟩
    · rintro ⟨x, y, z, w, hsome, hr⟩
      simp only [Option.some.injEq, Prod.mk.injEq] at hsome
      obtain ⟨hx, hy, hz, hw⟩ := hsome
      subst hx; subst hy; subst hz; subst hw
      exact hr

/-- C1: `IsPrivateIP` returns true exactly for dotted-quad strings whose
address lies in one of the three RFC1918 intervals of the spec, and false
on boundary values `172.15.255.255` and `172.32.0.0`, on loopback
`127.0.0.1`, and on malformed strings. -/
theorem isPrivateIP_matches_rfc1918 :
    (∀ s : String, IsPrivateIP s = true ↔
      ∃ a b c d, parseIPv4 s = some (a, b, c, d) ∧
        specPrivateRange (ipValue a b c d)) ∧
    IsPrivateIP "10.0.0.0" = true ∧ IsPrivateIP "10.255.255.255" = true ∧
    IsPrivateIP "172.16.0.0" = true ∧ IsPrivateIP "172.31.255.255" = true ∧
    IsPrivateIP "192.168.0.0" = true ∧ IsPrivateIP "192.168.255.255" = true ∧
    IsPrivateIP "172.15.255.255" = false ∧ IsPrivateIP "172.32.0.0" = false ∧
    IsPrivateIP "127.0.0.1" = false ∧ IsPrivateIP "8.8.8.8" = false ∧
    IsPrivateIP "invalid" = false ∧ IsPrivateIP "" = false ∧
    IsPrivateIP "256.1.1.1" = false ∧ IsPrivateIP "192.168.1" = false :=
  ⟨isPrivateIP_iff, by decide, by decide, by decide, by decide, by decide,
   by decide, by decide, by decide, by decide, by decide, by decide,
   by decide, by decide, by decide⟩

/-! ## Interface classification (`classifyInterface` in `internal/net`)

Models of `strings.HasPrefix`, `strings.Contains` and `strings.ToLower`
(ASCII case mapping, which covers interface names) on `List Char`. -/

/-- `strings.HasPrefix s pat` on character lists. -/
def startsWithChars : List Char → List Char → Bool
  | _, [] => true
  | [], _ :: _ => false
  | c :: cs, p :: ps => c == p && startsWithChars cs ps

/-- `strings.Contains s pat` on character lists (pattern first). -/
def containsChars (pat : List Char) : List Char → Bool
  | [] => pat.isEmpty
  | c :: cs => startsWithChars (c :: cs) pat || containsChars pat cs

/-- `strings.ToLower` of the Go code, on the ASCII names it receives. -/
def lowerName (name : String) : List Char :=
  name.data.map Char.toLower

/-- The nested conditionals of `classifyInterface`, over the lowered name:
virtual name starts first, then wifi, then ethernet, default ethernet. -/
def classifyChain (nameLower : List Char) : String :=
  if startsWithChars nameLower "docker".data || startsWithChars nameLower "veth".data ||
      startsWithChars nameLower "br-".data || startsWithChars nameLower "virbr".data ||
      startsWithChars nameLower "vmnet".data || startsWithChars nameLower "vbox".data then
    "virtual"
  else if startsWithChars nameLower "wlan".data || startsWithChars nameLower "wl".data ||
      startsWithChars nameLower "wifi".data || containsChars "wi-fi".data nameLower then
    "wifi"
  else if startsWithChars nameLower "eth".data || startsWithChars nameLower "en".data ||
      startsWithChars nameLower "em".data || startsWithChars nameLower "eno".data ||
      startsWithChars nameLower "enp".data || startsWithChars nameLower "ens".data then
    "ethernet"
  else
    "ethernet"

/-- `classifyInterface` from `internal/net/detector.go`: lower-case the
name, then walk the rule chain. -/
def classifyInterface (name : String) : String :=
  classifyChain (lowerName name)

/-- The spec's view of the classifier: a small ordered table of
(predicate, class) rows evaluated in fixed order — all virtual rows, then
the wifi rows, then the ethernet rows — with default class ethernet. -/
def specRules : List ((List Char → Bool) × String) :=
  [(fun n => startsWithChars n "docker".data, "virtual"),
   (fun n => startsWithChars n "veth".data, "virtual"),
   (fun n => startsWithChars n "br-".data, "virtual"),
   (fun n => startsWithChars n "virbr".data, "virtual"),
   (fun n => startsWithChars n "vmnet".data, "virtual"),
   (fun n => startsWithChars n "vbox".data, "virtual"),
   (fun n => startsWithChars n "wlan".data, "wifi"),
   (fun n => startsWithChars n "wl".data, "wifi"),
   (fun n => startsWithChars n "wifi".data, "wifi"),
   (fun n => containsChars "wi-fi".data n, "wifi"),
   (fun n => startsWithChars n "eth".data, "ethernet"),
   (fun n => startsWithChars n "en".data, "ethernet"),
   (fun n => startsWithChars n "em".data, "ethernet"),
   (fun n => startsWithChars n "eno".data, "ethernet"),
   (fun n => startsWithChars n "enp".data, "ethernet"),
   (fun n => startsWithChars n "ens".data, "ethernet")]

/-- First matching row of the spec table, default ethernet. -/
def specClassify (name : String) : String :=
  match specRules.find? (fun r => r.1 (lowerName name)) with
  | some r => r.2
  | none => "ethernet"

-- scratch tests
example : classifyInterface "wlan0" = "wifi" := by decide
example : classifyInterface "WLAN0" = "wifi" := by decide
example : classifyInterface "docker0" = "virtual" := by decide
example : classifyInterface "vboxnet0" = "virtual" := by decide
example : classifyInterface "br-123456" = "virtual" := by decide
example : classifyInterface "eth0" = "ethernet" := by decide
example : classifyInterface "en0" = "ethernet" := by decide
example : classifyInterface "unknown0" = "ethernet" := by decide
example : specClassify "wlan0" = "wifi" := by decide
example : specClassify "unknown0" = "ethernet" := by decide

lemma classifyChain_eq_find (n : List Char) :
    classifyChain n = (match specRules.find? (fun r => r.1 n) with
      | some r => r.2
      | none => "ethernet") := by
  unfold classifyChain specRules
  by_cases h1 : startsWithChars n "docker".data = true
  · simp [List.find?, h1]
  by_cases h2 : startsWithChars n "veth".data = true
  · simp [List.find?, h1, h2]
  by_cases h3 : startsWithChars n "br-".data = true
  · simp [List.find?, h1, h2, h3]
  by_cases h4 : startsWithChars n "virbr".data = true
  · simp [List.find?, h1, h2, h3, h4]
  by_cases h5 : startsWithChars n "vmnet".data = true
  · simp [List.find?, h1, h2, h3, h4, h5]
  by_cases h6 : startsWithChars n "vbox".data = true
  · simp [List.find?, h1, h2, h3, h4, h5, h6]
  by_cases h7 : startsWithChars n "wlan".data = true
  · simp [List.find?, h1, h2, h3, h4, h5, h6, h7]
  by_cases h8 : startsWithChars n "wl".data = true
  · simp [List.find?, h1, h2, h3, h4, h5, h6, h7, h8]
  by_cases h9 : startsWithChars n "wifi".data = true
  · simp [List.find?, h1, h2, h3, h4, h5, h6, h7, h8, h9]
  by_cases h10 : containsChars "wi-fi".data n = true
  · simp [List.find?, h1, h2, h3, h4, h5, h6, h7, h8, h9, h10]
  by_cases h11 : startsWithChars n "eth".data = true
  · simp [List.find?, h1, h2, h3, h4, h5, h6, h7, h8, h9, h10, h11]
  by_cases h12 : startsWithChars n "en".data = true
  · simp [List.find?, h1, h2, h3, h4, h5, h6, h7, h8, h9, h10, h11, h12]
  by_cases h13 : startsWithChars n "em".data = true
  · simp [List.find?, h1, h2, h3, h4, h5, h6, h7, h8, h9, h10, h11, h12, h13]
  by_cases h14 : startsWithChars n "eno".data = true
  · simp [List.find?, h1, h2, h3, h4, h5, h6, h7, h8, h9, h10, h11, h12, h13, h14]
  by_cases h15 : startsWithChars n "enp".data = true
  · simp [List.find?, h1, h2, h3, h4, h5, h6, h7, h8, h9, h10, h11, h12, h13, h14, h15]
  by_cases h16 : startsWithChars n "ens".data = true
  · simp [List.find?, h1, h2, h3, h4, h5, h6, h7, h8, h9, h10, h11, h12, h13, h14, h15, h16]
  simp [List.find?, h1, h2, h3, h4, h5, h6, h7, h8, h9, h10, h11, h12, h13, h14, h15, h16]

/-- C3: `classifyInterface` coincides with the spec's ordered rule table
(virtual rows first, then wifi, then ethernet, default ethernet), is
case-insensitive (it depends only on the lowered name), returns only
wifi/ethernet/virtual, and when no table row matches it defaults to
ethernet, never virtual. -/
theorem classifyInterface_spec :
    (∀ name, classifyInterface name = specClassify name) ∧
    (∀ n₁ n₂ : String, lowerName n₁ = lowerName n₂ →
      classifyInterface n₁ = classifyInterface n₂) ∧
    (∀ name, classifyInterface name = "wifi" ∨ classifyInterface name = "ethernet" ∨
      classifyInterface name = "virtual") ∧
    (∀ name, specRules.find? (fun r => r.1 (lowerName name)) = none →
      classifyInterface name = "ethernet") ∧
    classifyInterface "wlan0" = "wifi" ∧ classifyInterface "WLAN0" = "wifi" ∧
    classifyInterface "docker0" = "virtual" ∧ classifyInterface "eth0" = "ethernet" ∧
    classifyInterface "en0" = "ethernet" ∧ classifyInterface "unknownIface0" = "ethernet" := by
  refine ⟨fun name => classifyChain_eq_find (lowerName name), ?_, ?_, ?_,
    by decide, by decide, by decide, by decide, by decide, by decide⟩
  · intro n₁ n₂ h
    unfold classifyInterface
    rw [h]
  · intro name
    unfold classifyInterface classifyChain
    split_ifs <;> simp
  · intro name h
    have := classifyChain_eq_find (lowerName name)
    rw [h] at this
    exact this

/-- Witness for C3: the case-insensitivity clause applied to `WLAN0` and
`wlan0`, and the no-row-matches default clause applied to `zz9`. -/
theorem classifyInterface_spec_witness :
    (lowerName "WLAN0" = lowerName "wlan0" ∧
      classifyInterface "WLAN0" = classifyInterface "wlan0") ∧
    (specRules.find? (fun r => r.1 (lowerName "zz9")) = none ∧
      classifyInterface "zz9" = "ethernet") :=
  ⟨⟨by decide, classifyInterface_spec.2.1 "WLAN0" "wlan0" (by decide)⟩,
   ⟨rfl, classifyInterface_spec.2.2.2.1 "zz9" rfl⟩⟩

/-! ## Interface scanning (`GetAllInterfaces` in `internal/net`)

OS interfaces are modelled by their name, their up/loopback flags and
their address list; `addrs = none` models `iface.Addrs()` returning an
error (the Go code then skips the interface).  An address is either an
IPv4 quad (`To4` non-nil; `ip.String()` prints it as a dotted quad) or
anything else (`other`): IPv6 or an unrecognised address type, for which
the Go code hits `ip == nil || ip.To4() == nil` and skips it. -/

inductive IfaceAddr
  | v4 (a b c d : Nat)
  | other
deriving DecidableEq

structure Iface where
  name : String
  up : Bool
  loopback : Bool
  addrs : Option (List IfaceAddr)
deriving DecidableEq

/-- `NetworkInfo` from `internal/net/detector.go` (`Type` is `type` here,
`Type` being reserved in Lean). -/
structure NetworkInfo where
  IP : String
  Interface : String
  type : String
deriving DecidableEq

/-- `ip.String()` for a 4-byte IP: the dotted decimal quad. -/
def ipv4String (a b c d : Nat) : String :=
  toString a ++ "." ++ toString b ++ "." ++ toString c ++ "." ++ toString d

/-- The body of the outer loop of `GetAllInterfaces` for one interface:
skip interfaces that are down, loopback, or whose address listing failed;
keep each IPv4 address that passes `IsPrivateIP`, classified by name. -/
def interfaceCandidates (i : Iface) : List NetworkInfo :=
  if i.up = false then []
  else if i.loopback = true then []
  else
    match i.addrs with
    | none => []
    | some addrs =>
      addrs.filterMap (fun ad =>
        match ad with
        | .v4 a b c d =>
          let ipStr := ipv4String a b c d
          if IsPrivateIP ipStr then
            some { IP := ipStr, Interface := i.name, type := classifyInterface i.name }
          else none
        | .other => none)

/-- `GetAllInterfaces`: concatenate the per-interface results in
enumeration order. -/
def GetAllInterfaces (ifaces : List Iface) : List NetworkInfo :=
  (ifaces.map interfaceCandidates).flatten

-- scratch tests
example :
    GetAllInterfaces
      [⟨"lo", true, true, some [.v4 127 0 0 1]⟩,
       ⟨"eth0", true, false, some [.v4 192 168 1 100]⟩,
       ⟨"eth1", false, false, some [.v4 192 168 1 101]⟩,
       ⟨"wlan0", true, false, some [.other, .v4 8 8 8 8, .v4 10 0 0 5]⟩] =
      [{ IP := "192.168.1.100", Interface := "eth0", type := "ethernet" },
       { IP := "10.0.0.5", Interface := "wlan0", type := "wifi" }] := by decide

/-- C2: every candidate the scanner returns carries a private (RFC1918)
IPv4 address and stems from an interface of the input list that is up and
not loopback, via one of its IPv4 addresses; down, loopback, IPv6-only or
non-private addresses therefore never contribute a candidate. -/
theorem getAllInterfaces_private_up_nonloopback
    (ifaces : List Iface) (c : NetworkInfo) (hc : c ∈ GetAllInterfaces ifaces) :
    IsPrivateIP c.IP = true ∧
    (∃ a b c4 d, parseIPv4 c.IP = some (a, b, c4, d) ∧
      specPrivateRange (ipValue a b c4 d)) ∧
    ∃ i ∈ ifaces, i.up = true ∧ i.loopback = false ∧
      c.Interface = i.name ∧ c.type = classifyInterface i.name ∧
      ∃ addrs, i.addrs = some addrs ∧
        ∃ a b c4 d, IfaceAddr.v4 a b c4 d ∈ addrs ∧ c.IP = ipv4String a b c4 d := by
  unfold GetAllInterfaces at hc
  rw [List.mem_flatten] at hc
  obtain ⟨cands, hcands, hmem⟩ := hc
  rw [List.mem_map] at hcands
  obtain ⟨i, hi, hci⟩ := hcands
  subst hci
  unfold interfaceCandidates at hmem
  split at hmem
  · exact absurd hmem (by simp)
  split at hmem
  · exact absurd hmem (by simp)
  next hup hloop =>
  split at hmem
  · exact absurd hmem (by simp)
  next addrs haddrs =>
  rw [List.mem_filterMap] at hmem
  obtain ⟨ad, had, hsome⟩ := hmem
  cases ad with
  | other => exact absurd hsome (by simp)
  | v4 a b c4 d =>
    simp only at hsome
    split at hsome
    next hpriv =>
      simp only [Option.some.injEq] at hsome
      subst hsome
      refine ⟨hpriv, (isPrivateIP_iff _).mp hpriv, i, hi, ?_, ?_, rfl, rfl,
        addrs, haddrs, a, b, c4, d, had, rfl⟩
      · simpa using hup
      · simpa using hloop
    next => exact absurd hsome (by simp)

/-- Witness for C2: the scanner applied to a single up, non-loopback
ethernet interface holding `192.168.1.100`. -/
theorem getAllInterfaces_private_witness :
    ({ IP := "192.168.1.100", Interface := "eth0", type := "ethernet" } : NetworkInfo) ∈
      GetAllInterfaces [⟨"eth0", true, false, some [.v4 192 168 1 100]⟩] ∧
    IsPrivateIP "192.168.1.100" = true ∧
    ∃ i ∈ [(⟨"eth0", true, false, some [.v4 192 168 1 100]⟩ : Iface)],
      i.up = true ∧ i.loopback = false := by
  have h := getAllInterfaces_private_up_nonloopback
    [⟨"eth0", true, false, some [.v4 192 168 1 100]⟩]
    { IP := "192.168.1.100", Interface := "eth0", type := "ethernet" }
    (by decide)
  refine ⟨by decide, h.1, ?_⟩
  obtain ⟨i, hi, hup, hloop, _⟩ := h.2.2
  exact ⟨i, hi, hup, hloop⟩

/-! ## Interface selection (`PrioritizeInterfaces` in `internal/net`)

The Go function splits the list into physical and virtual in one pass
(order preserved), returns the first physical entry typed wifi/ethernet,
else the first physical entry, else the first virtual entry, else nil. -/

/-- `PrioritizeInterfaces` from `internal/net/detector.go`. -/
def PrioritizeInterfaces (interfaces : List NetworkInfo) : Option NetworkInfo :=
  if interfaces.length = 0 then none
  else
    let parts := interfaces.partition (fun i => i.type == "virtual")
    if 0 < parts.2.length then
      match parts.2.find? (fun i => i.type == "wifi" || i.type == "ethernet") with
      | some i => some i
      | none => parts.2.head?
    else if 0 < parts.1.length then parts.1.head?
    else none

/-- The selection policy exactly as the claim words it, over the input
list: first wifi-or-ethernet candidate in list order, else first
non-virtual candidate, else first virtual candidate, else no selection. -/
def specSelect (l : List NetworkInfo) : Option NetworkInfo :=
  match l.find? (fun i => i.type == "wifi" || i.type == "ethernet") with
  | some i => some i
  | none =>
    match l.find? (fun i => !(i.type == "virtual")) with
    | some i => some i
    | none =>
      match l.find? (fun i => i.type == "virtual") with
      | some i => some i
      | none => none

-- scratch tests
example :
    PrioritizeInterfaces
      [{ IP := "172.17.0.1", Interface := "docker0", type := "virtual" },
       { IP := "192.168.1.100", Interface := "wlan0", type := "wifi" }] =
      some { IP := "192.168.1.100", Interface := "wlan0", type := "wifi" } := by decide
example :
    PrioritizeInterfaces
      [{ IP := "192.168.1.50", Interface := "eth0", type := "ethernet" },
       { IP := "192.168.1.100", Interface := "wlan0", type := "wifi" }] =
      some { IP := "192.168.1.50", Interface := "eth0", type := "ethernet" } := by decide
example : PrioritizeInterfaces [] = none := by decide

lemma find?_filter_eq {α : Type} (l : List α) (p q : α → Bool) :
    (l.filter q).find? p = l.find? (fun a => q a && p a) := by
  induction l with
  | nil => rfl
  | cons a t ih =>
    by_cases hq : q a = true <;> by_cases hp : p a = true <;>
      simp [List.filter_cons, List.find?, hq, hp, ih]

lemma find?_and_left {α : Type} {p q : α → Bool}
    (h : ∀ a, p a = true → q a = true) (l : List α) :
    l.find? (fun a => q a && p a) = l.find? p := by
  induction l with
  | nil => rfl
  | cons a t ih =>
    by_cases hp : p a = true
    · simp [List.find?, hp, h a hp]
    · simp [List.find?, hp, ih]

lemma head?_filter_eq {α : Type} (l : List α) (q : α → Bool) :
    (l.filter q).head? = l.find? q := by
  induction l with
  | nil => rfl
  | cons a t ih =>
    by_cases hq : q a = true <;> simp [List.filter_cons, List.find?, hq, ih]

lemma physOrWifi_not_virtual (i : NetworkInfo) :
    (i.type == "wifi" || i.type == "ethernet") = true →
      (!(i.type == "virtual")) = true := by
  intro h
  rcases Bool.or_eq_true _ _ |>.mp h with h1 | h1 <;>
    simp_all [beq_iff_eq]

/-- C4: `PrioritizeInterfaces` implements the claim's policy over the
input order — first wifi-or-ethernet candidate, else first non-virtual
candidate, else first virtual candidate, else no selection — and in
particular returns `none` exactly on the empty list. -/
theorem prioritizeInterfaces_policy :
    (∀ l, PrioritizeInterfaces l = specSelect l) ∧
    PrioritizeInterfaces
      [{ IP := "172.17.0.1", Interface := "docker0", type := "virtual" },
       { IP := "192.168.1.100", Interface := "wlan0", type := "wifi" }] =
      some { IP := "192.168.1.100", Interface := "wlan0", type := "wifi" } ∧
    PrioritizeInterfaces
      [{ IP := "192.168.1.50", Interface := "eth0", type := "ethernet" },
       { IP := "192.168.1.100", Interface := "wlan0", type := "wifi" }] =
      some { IP := "192.168.1.50", Interface := "eth0", type := "ethernet" } ∧
    PrioritizeInterfaces
      [{ IP := "172.17.0.1", Interface := "docker0", type := "virtual" },
       { IP := "172.18.0.1", Interface := "br-123", type := "virtual" }] =
      some { IP := "172.17.0.1", Interface := "docker0", type := "virtual" } ∧
    PrioritizeInterfaces [] = none := by
  refine ⟨?_, by decide, by decide, by decide, by decide⟩
  intro l
  unfold PrioritizeInterfaces specSelect
  rw [List.partition_eq_filter_filter]
  simp only [Function.comp_def]
  cases l with
  | nil => rfl
  | cons x t =>
    simp only [List.length_cons, Nat.succ_ne_zero, if_false]
    set l := x :: t with hl
    by_cases hphys : 0 < (l.filter (fun i => !(i.type == "virtual"))).length
    · rw [if_pos hphys]
      rw [find?_filter_eq, find?_and_left physOrWifi_not_virtual]
      cases hfind : l.find? (fun i => i.type == "wifi" || i.type == "ethernet") with
      | some i => rfl
      | none =>
        rw [head?_filter_eq]
        cases hq : l.find? (fun i => !(i.type == "virtual")) with
        | some i => rfl
        | none =>
          exfalso
          rw [List.find?_eq_none] at hq
          rcases List.exists_mem_of_length_pos hphys with ⟨y, hy⟩
          rcases List.mem_filter.mp hy with ⟨hyl, hyq⟩
          exact hq y hyl hyq
    · rw [if_neg hphys]
      have hallvirt : ∀ i ∈ l, (i.type == "virtual") = true := by
        intro i hi
        by_contra hcon
        have : i ∈ l.filter (fun i => !(i.type == "virtual")) :=
          List.mem_filter.mpr ⟨hi, by simp [hcon]⟩
        exact hphys (List.length_pos.mpr (List.ne_nil_of_mem this))
      have hfind1 : l.find? (fun i => i.type == "wifi" || i.type == "ethernet") = none := by
        rw [List.find?_eq_none]
        intro i hi hcon
        have := physOrWifi_not_virtual i hcon
        simp [hallvirt i hi] at this
      have hfind2 : l.find? (fun i => !(i.type == "virtual")) = none := by
        rw [List.find?_eq_none]
        intro i hi hcon
        simp [hallvirt i hi] at hcon
      rw [hfind1, hfind2]
      have hvirt : 0 < (l.filter (fun i => i.type == "virtual")).length := by
        have : x ∈ l.filter (fun i => i.type == "virtual") :=
          List.mem_filter.mpr ⟨by simp [hl], hallvirt x (by simp [hl])⟩
        exact List.length_pos.mpr (List.ne_nil_of_mem this)
      rw [if_pos hvirt, head?_filter_eq]
      cases hv : l.find? (fun i => i.type == "virtual") <;> rfl

/-! ## URL rewrite (`transformURL` in `cmd/start.go`)

`strings.ReplaceAll` (all leftmost non-overlapping occurrences, for the
non-empty patterns used here) modelled with structural recursion on a
fuel bounded by the string length: each step consumes at least one
character. -/

def replaceAllFuel (pat rep : List Char) : Nat → List Char → List Char
  | _, [] => []
  | 0, s => s
  | fuel + 1, c :: cs =>
    if startsWithChars (c :: cs) pat then
      rep ++ replaceAllFuel pat rep fuel ((c :: cs).drop pat.length)
    else
      c :: replaceAllFuel pat rep fuel cs

/-- `strings.ReplaceAll s pat rep` for the non-empty patterns
`"localhost"` and `"127.0.0.1"`. -/
def replaceAllStr (s pat rep : String) : String :=
  String.mk (replaceAllFuel pat.data rep.data s.data.length s.data)

/-- `transformURL` from `cmd/start.go`: replace `localhost`, then
`127.0.0.1`, by the detected address. -/
def transformURL (url newIP : String) : String :=
  let url := replaceAllStr url "localhost" newIP
  let url := replaceAllStr url "127.0.0.1" newIP
  url

-- scratch tests
example :
    transformURL "http://localhost:8000?x=http://localhost:3000" "192.168.1.100" =
      "http://192.168.1.100:8000?x=http://192.168.1.100:3000" := by decide
example : transformURL "http://127.0.0.1:8000" "192.168.1.100" =
    "http://192.168.1.100:8000" := by decide
example : transformURL "http://192.168.1.50:8000" "192.168.1.100" =
    "http://192.168.1.50:8000" := by decide

lemma replaceAll_not_contains {pat : List Char} (rep : List Char) {s : List Char}
    (h : containsChars pat s = false) :
    replaceAllFuel pat rep s.length s = s := by
  induction s with
  | nil => rfl
  | cons c cs ih =>
    unfold containsChars at h
    rw [Bool.or_eq_false_iff] at h
    obtain ⟨h1, h2⟩ := h
    show replaceAllFuel pat rep (cs.length + 1) (c :: cs) = c :: cs
    unfold replaceAllFuel
    rw [if_neg (by simp [h1])]
    rw [ih h2]

/-- C5: `transformURL` leaves any value containing neither `localhost`
nor `127.0.0.1` unchanged, and on the spec's examples replaces every
occurrence of either token (including two occurrences in one value, one
of them inside a query string) by the selected address. -/
theorem transformURL_spec :
    (∀ url ip : String, containsChars "localhost".data url.data = false →
      containsChars "127.0.0.1".data url.data = false →
      transformURL url ip = url) ∧
    transformURL "http://localhost:8000?x=http://localhost:3000" "192.168.1.100" =
      "http://192.168.1.100:8000?x=http://192.168.1.100:3000" ∧
    transformURL "http://127.0.0.1:8000" "192.168.1.100" = "http://192.168.1.100:8000" ∧
    transformURL "https://localhost:8443" "192.168.1.100" = "https://192.168.1.100:8443" ∧
    transformURL "http://localhost" "10.0.0.5" = "http://10.0.0.5" ∧
    transformURL "http://192.168.1.50:8000" "192.168.1.100" = "http://192.168.1.50:8000" := by
  refine ⟨?_, by decide, by decide, by decide, by decide, by decide⟩
  intro url ip h1 h2
  unfold transformURL
  have e1 : replaceAllStr url "localhost" ip = url := by
    unfold replaceAllStr
    rw [replaceAll_not_contains _ h1]
  rw [e1]
  show String.mk (replaceAllFuel "127.0.0.1".data ip.data url.data.length url.data) = url
  rw [replaceAll_not_contains _ h2]

/-- Witness for C5: a value with neither token is returned unchanged. -/
theorem transformURL_spec_witness :
    containsChars "localhost".data "http://192.168.1.50:8000".data = false ∧
    containsChars "127.0.0.1".data "http://192.168.1.50:8000".data = false ∧
    transformURL "http://192.168.1.50:8000" "10.0.0.5" = "http://192.168.1.50:8000" :=
  ⟨by decide, by decide,
   transformURL_spec.1 "http://192.168.1.50:8000" "10.0.0.5" (by decide) (by decide)⟩

/-! ## Change watcher (`IPWatcher` in `internal/net/watcher.go`)

The watcher's mutable state is `CurrentIP` and the `stopped` flag (the
mutex, the stop channel and the timer are concurrency plumbing with no
further observable state).  Effects are made explicit: each call of
`DetectLocalIP` is an input (`some ip` on success, `none` on error), the
`OnChange` callback invocations are collected as an output list of
(old, new) pairs, and `Start` consumes a finite list of tick inputs
before the loop is cancelled. -/

structure IPWatcher where
  CurrentIP : String
  Interval : Nat
  stopped : Bool
deriving DecidableEq

/-- `NewIPWatcher`: default interval 5 seconds when given 0. -/
def NewIPWatcher (interval : Nat) : IPWatcher :=
  { CurrentIP := "", Interval := if interval = 0 then 5 else interval, stopped := false }

/-- What `Start` returns in the model: `retNil` for a nil return (stopped
early, or loop cancelled), `retErr` when the initial detection error is
returned. -/
inductive StartRet
  | retNil
  | retErr
deriving DecidableEq

/-- `checkIPChange`: on detection error return the error untouched; on a
changed address update `CurrentIP` and fire the callback with
(old, new); on an unchanged address do nothing. -/
def checkIPChange (w : IPWatcher) (detect : Option String) :
    IPWatcher × Option (String × String) × Bool :=
  match detect with
  | none => (w, none, true)
  | some newIP =>
    if w.CurrentIP ≠ newIP then
      ({ w with CurrentIP := newIP }, some (w.CurrentIP, newIP), false)
    else
      (w, none, false)

/-- The monitoring loop of `Start`: one `checkIPChange` per tick; a
failing tick (`continue`) keeps looping like a successful one. -/
def runTicks (w : IPWatcher) (ticks : List (Option String)) :
    IPWatcher × List (String × String) :=
  match ticks with
  | [] => (w, [])
  | t :: rest =>
    let step := checkIPChange w t
    let tail := runTicks step.1 rest
    (tail.1, step.2.1.toList ++ tail.2)

/-- `IPWatcher.Start`: an already-stopped watcher returns nil at once;
otherwise the initial address is detected synchronously (an error is
returned and the loop never entered), stored without firing the
callback, and the loop runs over the ticks. -/
def IPWatcher.Start (w : IPWatcher) (init : Option String)
    (ticks : List (Option String)) :
    IPWatcher × List (String × String) × StartRet :=
  if w.stopped then (w, [], .retNil)
  else
    match init with
    | none => (w, [], .retErr)
    | some ip =>
      let w1 := { w with CurrentIP := ip }
      let run := runTicks w1 ticks
      (run.1, run.2, .retNil)

/-- `IPWatcher.Stop`: once stopped, further calls leave the state alone
(the guard is what keeps the Go code from closing `stopCh` twice). -/
def IPWatcher.Stop (w : IPWatcher) : IPWatcher :=
  if w.stopped then w else { w with stopped := true }

-- scratch tests
example :
    IPWatcher.Start ⟨"", 5, false⟩ (some "192.168.1.100") [some "192.168.1.101"] =
      (⟨"192.168.1.101", 5, false⟩, [("192.168.1.100", "192.168.1.101")], .retNil) := by
  decide
example :
    IPWatcher.Start ⟨"", 5, false⟩ (some "192.168.1.100") [some "192.168.1.100"] =
      (⟨"192.168.1.100", 5, false⟩, [], .retNil) := by decide

/-- C6: the callback never fires for the initial address assignment; a
tick whose detected address differs from the stored one fires the
callback exactly once with (previous, new) and updates the stored
address; a tick with an unchanged address fires nothing.  Instantiated
on the spec's `192.168.1.100 → 192.168.1.101` example. -/
theorem watcher_callback_semantics :
    (∀ (w : IPWatcher) ip, w.stopped = false →
      IPWatcher.Start w (some ip) [] = ({ w with CurrentIP := ip }, [], .retNil)) ∧
    (∀ (w : IPWatcher) newIP, w.CurrentIP ≠ newIP →
      runTicks w [some newIP] =
        ({ w with CurrentIP := newIP }, [(w.CurrentIP, newIP)])) ∧
    (∀ w : IPWatcher, runTicks w [some w.CurrentIP] = (w, [])) ∧
    IPWatcher.Start ⟨"", 5, false⟩ (some "192.168.1.100") [some "192.168.1.101"] =
      (⟨"192.168.1.101", 5, false⟩, [("192.168.1.100", "192.168.1.101")], .retNil) ∧
    IPWatcher.Start ⟨"", 5, false⟩ (some "192.168.1.100") [some "192.168.1.100"] =
      (⟨"192.168.1.100", 5, false⟩, [], .retNil) := by
  refine ⟨?_, ?_, ?_, by decide, by decide⟩
  · intro w ip h
    unfold IPWatcher.Start
    rw [if_neg (by simp [h])]
    rfl
  · intro w newIP h
    simp only [runTicks, checkIPChange]
    rw [if_pos h]
    simp [runTicks]
  · intro w
    simp only [runTicks, checkIPChange]
    rw [if_neg (by simp)]
    simp [runTicks]

/-- Witness for C6: the no-initial-callback clause at a concrete watcher,
and the changed/unchanged tick clauses at concrete addresses. -/
theorem watcher_callback_semantics_witness :
    ((⟨"", 5, false⟩ : IPWatcher).stopped = false ∧
      IPWatcher.Start ⟨"", 5, false⟩ (some "10.0.0.1") [] =
        (⟨"10.0.0.1", 5, false⟩, [], .retNil)) ∧
    ((⟨"192.168.1.100", 5, false⟩ : IPWatcher).CurrentIP ≠ "192.168.1.101" ∧
      runTicks ⟨"192.168.1.100", 5, false⟩ [some "192.168.1.101"] =
        (⟨"192.168.1.101", 5, false⟩, [("192.168.1.100", "192.168.1.101")])) ∧
    runTicks ⟨"192.168.1.100", 5, false⟩ [some "192.168.1.100"] =
      (⟨"192.168.1.100", 5, false⟩, []) :=
  ⟨⟨rfl, watcher_callback_semantics.1 ⟨"", 5, false⟩ "10.0.0.1" rfl⟩,
   ⟨by decide, watcher_callback_semantics.2.1 ⟨"192.168.1.100", 5, false⟩
      "192.168.1.101" (by decide)⟩,
   watcher_callback_semantics.2.2.1 ⟨"192.168.1.100", 5, false⟩⟩

/-- C7: a failing scan during a tick is swallowed — same state, no
callback, monitoring continues with the remaining ticks — while a
failing initial detection makes `Start` return the error with no tick
processed and no callback ever fired. -/
theorem watcher_error_handling :
    (∀ (w : IPWatcher) rest, runTicks w (none :: rest) = runTicks w rest) ∧
    (∀ w : IPWatcher, checkIPChange w none = (w, none, true)) ∧
    (∀ (w : IPWatcher) ticks, w.stopped = false →
      IPWatcher.Start w none ticks = (w, [], .retErr)) := by
  refine ⟨?_, fun w => rfl, ?_⟩
  · intro w rest
    conv => lhs; unfold runTicks checkIPChange
    cases h : runTicks w rest with
    | mk w2 evs => simp [h]
  · intro w ticks h
    unfold IPWatcher.Start
    rw [if_neg (by simp [h])]

/-- Witness for C7: a failed tick between two good ones drops out of the
run, and a failed initial detection aborts a fresh watcher. -/
theorem watcher_error_handling_witness :
    runTicks ⟨"10.0.0.1", 5, false⟩ [none, some "10.0.0.2"] =
      runTicks ⟨"10.0.0.1", 5, false⟩ [some "10.0.0.2"] ∧
    ((NewIPWatcher 0).stopped = false ∧
      IPWatcher.Start (NewIPWatcher 0) none [some "10.0.0.2"] =
        (NewIPWatcher 0, [], .retErr)) :=
  ⟨watcher_error_handling.1 ⟨"10.0.0.1", 5, false⟩ [some "10.0.0.2"],
   ⟨rfl, watcher_error_handling.2.2 (NewIPWatcher 0) [some "10.0.0.2"] rfl⟩⟩

/-- C10: `Stop` is idempotent — it marks the watcher stopped, and
stopping an already-stopped watcher changes nothing (the guard that in
Go prevents a double channel close) — and `Start` on a stopped watcher
returns nil immediately: no detection, no tick, no callback. -/
theorem watcher_stop_idempotent :
    (∀ w : IPWatcher, IPWatcher.Stop (IPWatcher.Stop w) = IPWatcher.Stop w) ∧
    (∀ w : IPWatcher, (IPWatcher.Stop w).stopped = true) ∧
    (∀ w : IPWatcher, w.stopped = true → IPWatcher.Stop w = w) ∧
    (∀ (w : IPWatcher) init ticks, w.stopped = true →
      IPWatcher.Start w init ticks = (w, [], .retNil)) := by
  have hstop : ∀ w : IPWatcher, (IPWatcher.Stop w).stopped = true := by
    intro w
    unfold IPWatcher.Stop
    by_cases h : w.stopped = true <;> simp [h]
  have hid : ∀ w : IPWatcher, w.stopped = true → IPWatcher.Stop w = w := by
    intro w h
    unfold IPWatcher.Stop
    rw [if_pos (by simp [h])]
  refine ⟨fun w => hid _ (hstop w), hstop, hid, ?_⟩
  intro w init ticks h
  unfold IPWatcher.Start
  rw [if_pos (by simp [h])]

/-- Witness for C10: stopping a fresh watcher twice equals stopping it
once, and `Start` after `Stop` returns nil with no callback. -/
theorem watcher_stop_idempotent_witness :
    IPWatcher.Stop (IPWatcher.Stop (NewIPWatcher 5)) = IPWatcher.Stop (NewIPWatcher 5) ∧
    ((IPWatcher.Stop (NewIPWatcher 5)).stopped = true ∧
      IPWatcher.Start (IPWatcher.Stop (NewIPWatcher 5)) (some "10.0.0.1") [some "10.0.0.2"] =
        (IPWatcher.Stop (NewIPWatcher 5), [], .retNil)) :=
  ⟨watcher_stop_idempotent.1 (NewIPWatcher 5),
   ⟨by decide, watcher_stop_idempotent.2.2.2 (IPWatcher.Stop (NewIPWatcher 5))
      (some "10.0.0.1") [some "10.0.0.2"] (by decide)⟩⟩

/-! ## Env merge engine (`EnvWriter` in `internal/env`)

The `EnvWriter` implementation file is not among the sources; only its
tests and its caller in `cmd/start.go` are.  `Merge`, `Backup` and
`Write` are therefore modelled from the spec (section 4.6), and checked
against the behaviour the repository's own tests pin down. -/

/-- `EnvVar` from `internal/env`. -/
structure EnvVar where
  Key : String
  Value : String
  Managed : Bool
deriving DecidableEq

/-- Modelled from the spec: `EnvWriter.Merge` of `internal/env`, whose
implementation is missing from the sources (only `TestEnvWriter_Merge`
and the call in `cmd/start.go` are present).  Spec 4.6: every key of the
new managed set is taken with its new value and marked managed
(overwriting any prior entry for that key, managed or not); existing
entries whose key is absent from the new set and that are not managed
are preserved verbatim in their order; managed entries absent from the
new set (stale) are dropped. -/
def Merge (newVars existing : List EnvVar) : List EnvVar :=
  newVars.map (fun v => { v with Managed := true }) ++
    existing.filter (fun e => !e.Managed && !(newVars.any (fun n => n.Key == e.Key)))

-- scratch test: the merge-correctness example of the spec
example :
    Merge
      [⟨"A", "new", true⟩, ⟨"C", "new", true⟩]
      [⟨"A", "old", true⟩, ⟨"B", "b", false⟩] =
      [⟨"A", "new", true⟩, ⟨"C", "new", true⟩, ⟨"B", "b", false⟩] := by decide

/-- C8: membership in the merged set — an entry is in the result exactly
when it is a new entry marked managed, or an unmanaged existing entry
whose key the new set does not mention; preserved entries keep their
original relative order (they form the suffix after the new entries);
instantiated on the spec's `{A(managed,old), B(unmanaged)}` merged with
`{A(new), C(new)}` example. -/
theorem merge_semantics :
    (∀ (newVars existing : List EnvVar) (v : EnvVar),
      v ∈ Merge newVars existing ↔
        ((∃ n ∈ newVars, v = { n with Managed := true }) ∨
         (v ∈ existing ∧ v.Managed = false ∧ ∀ n ∈ newVars, n.Key ≠ v.Key))) ∧
    (∀ newVars existing : List EnvVar,
      (existing.filter
        (fun e => !e.Managed && !(newVars.any (fun n => n.Key == e.Key)))) <:+
        Merge newVars existing) ∧
    Merge [⟨"A", "new", true⟩, ⟨"C", "new", true⟩]
      [⟨"A", "old", true⟩, ⟨"B", "b", false⟩] =
      [⟨"A", "new", true⟩, ⟨"C", "new", true⟩, ⟨"B", "b", false⟩] := by
  refine ⟨?_, ?_, by decide⟩
  · intro newVars existing v
    unfold Merge
    rw [List.mem_append, List.mem_map]
    constructor
    · rintro (⟨n, hn, hv⟩ | hf)
      · exact Or.inl ⟨n, hn, hv.symm⟩
      · rcases List.mem_filter.mp hf with ⟨hmem, hcond⟩
        rw [Bool.and_eq_true, Bool.not_eq_true', Bool.not_eq_true'] at hcond
        refine Or.inr ⟨hmem, hcond.1, ?_⟩
        intro n hn hkey
        have : newVars.any (fun n => n.Key == v.Key) = true :=
          List.any_eq_true.mpr ⟨n, hn, beq_iff_eq.mpr hkey⟩
        rw [hcond.2] at this
        exact absurd this (by simp)
    · rintro (⟨n, hn, hv⟩ | ⟨hmem, hman, hkeys⟩)
      · exact Or.inl ⟨n, hn, hv.symm⟩
      · refine Or.inr (List.mem_filter.mpr ⟨hmem, ?_⟩)
        rw [Bool.and_eq_true, Bool.not_eq_true', Bool.not_eq_true']
        refine ⟨hman, ?_⟩
        rw [Bool.eq_false_iff]
        intro hany
        rcases List.any_eq_true.mp hany with ⟨n, hn, hkey⟩
        exact hkeys n hn (beq_iff_eq.mp hkey)
  · intro newVars existing
    unfold Merge
    exact ⟨newVars.map (fun v => { v with Managed := true }), rfl⟩

/-- Witness for C8: the membership clause applied to the preserved
unmanaged entry `B` of the spec example. -/
theorem merge_semantics_witness :
    (⟨"B", "b", false⟩ : EnvVar) ∈
      Merge [⟨"A", "new", true⟩, ⟨"C", "new", true⟩]
        [⟨"A", "old", true⟩, ⟨"B", "b", false⟩] :=
  (merge_semantics.1 [⟨"A", "new", true⟩, ⟨"C", "new", true⟩]
      [⟨"A", "old", true⟩, ⟨"B", "b", false⟩] ⟨"B", "b", false⟩).mpr
    (Or.inr ⟨by decide, rfl, by decide⟩)

/-! ## Backup-before-write (`EnvWriter.Backup` / `EnvWriter.Write`)

The file system is a map from paths to file contents. -/

abbrev FS := String → Option String

/-- Overwrite one path of the file system. -/
def fsWrite (fs : FS) (path content : String) : FS :=
  fun p => if p = path then some content else fs p

/-- Modelled from the spec: `EnvWriter.Backup` of `internal/env`, whose
implementation is missing from the sources (only its tests are): copy
the current content of the output path to the sibling `<path>.bak`;
when no file exists at the path, do nothing and report no error.  The
second component is the error flag. -/
def Backup (fs : FS) (path : String) : FS × Bool :=
  match fs path with
  | none => (fs, false)
  | some content => (fsWrite fs (path ++ ".bak") content, false)

/-- Modelled from the spec: the write path of `EnvWriter.Write` — run
the backup step first (when enabled), then overwrite the output path
with the rendered content (the rendering itself is not at issue in C9
and stays abstract). -/
def EnvWrite (fs : FS) (path content : String) (backupEnabled : Bool) : FS :=
  let fs1 := if backupEnabled then (Backup fs path).1 else fs
  fsWrite fs1 path content

lemma bak_ne (path : String) : path ++ ".bak" ≠ path := by
  intro h
  have hlen := congrArg String.length h
  rw [String.length_append] at hlen
  have h4 : ".bak".length = 4 := by decide
  rw [h4] at hlen
  omega

/-- C9: when a file exists at the output path, a write first copies its
exact prior content to `<path>.bak` and then overwrites the path; when
no file exists, the backup step changes nothing and reports no error,
and the write still lands the new content. -/
theorem backup_before_write :
    (∀ (fs : FS) path, fs path = none → Backup fs path = (fs, false)) ∧
    (∀ (fs : FS) path prior, fs path = some prior →
      (Backup fs path).1 (path ++ ".bak") = some prior ∧ (Backup fs path).2 = false) ∧
    (∀ (fs : FS) path content prior, fs path = some prior →
      EnvWrite fs path content true (path ++ ".bak") = some prior ∧
      EnvWrite fs path content true path = some content) ∧
    (∀ (fs : FS) path content, fs path = none →
      EnvWrite fs path content true = fsWrite fs path content) := by
  have hb : ∀ (fs : FS) path prior, fs path = some prior →
      (Backup fs path).1 = fsWrite fs (path ++ ".bak") prior := by
    intro fs path prior h
    unfold Backup
    rw [h]
  refine ⟨?_, ?_, ?_, ?_⟩
  · intro fs path h
    unfold Backup
    rw [h]
  · intro fs path prior h
    refine ⟨?_, ?_⟩
    · rw [hb fs path prior h]
      unfold fsWrite
      rw [if_pos rfl]
    · unfold Backup
      rw [h]
  · intro fs path content prior h
    constructor
    · show fsWrite (if true then (Backup fs path).1 else fs) path content (path ++ ".bak") =
        some prior
      rw [if_pos rfl, hb fs path prior h]
      unfold fsWrite
      rw [if_neg (bak_ne path), if_pos rfl]
    · show fsWrite (if true then (Backup fs path).1 else fs) path content path = some content
      unfold fsWrite
      rw [if_pos rfl]
  · intro fs path content h
    show fsWrite (if true then (Backup fs path).1 else fs) path content =
      fsWrite fs path content
    rw [if_pos rfl]
    unfold Backup
    rw [h]

/-- Witness for C9: a file system holding `OLD` at `.env`; after the
write, `.env.bak` holds `OLD` and `.env` holds `NEW`; on an empty file
system the backup is a no-op without error. -/
theorem backup_before_write_witness :
    ((fun p => if p = ".env" then some "OLD" else none : FS) ".env" = some "OLD" ∧
      EnvWrite (fun p => if p = ".env" then some "OLD" else none) ".env" "NEW" true
        (".env" ++ ".bak") = some "OLD" ∧
      EnvWrite (fun p => if p = ".env" then some "OLD" else none) ".env" "NEW" true
        ".env" = some "NEW") ∧
    ((fun _ => none : FS) ".env" = none ∧
      Backup (fun _ => none) ".env" = (fun _ => none, false)) := by
  have h1 := backup_before_write.2.2.1
    (fun p => if p = ".env" then some "OLD" else none) ".env" "NEW" "OLD" (by decide)
  have h2 := backup_before_write.1 (fun _ => none) ".env" rfl
  exact ⟨⟨by decide, h1.1, h1.2⟩, ⟨rfl, h2⟩⟩

end Lanup
